import Mathlib

/-!
# Verification of `programmer.py` (STK500 firmware uploader)

Shallow embedding of the STK500 programming session and the Intel-hex
loader of `programmer.py`, together with proofs about the claims of the
specification.

Modelling conventions:

* Bytes are `Nat` values (the source works on Python `bytes`; every byte
  constant is below 256 and all arithmetic that matters is done with
  explicit `% 256` masks exactly where the source masks with `0xff`).
* The transport (a TCP socket standing in for a serial line) is modelled
  by an environment `Env : Nat → Option (Nat → Nat)`.  Each
  `select`-guarded receive transaction of the source consumes one index
  `k`: `env k = none` models the `select` timeout (no byte arrives in
  time), and `env k = some f` models readiness, with `f j` the `j`-th
  byte delivered to the `recv` calls of that transaction.  The source's
  `recv(n)` calls are modelled as delivering the requested bytes in
  order; a blocking `recv` that never returns would make the Python
  program hang, which has no counterpart in a terminating trace.
* Every packet passed to `sendall` is recorded in a trace
  (`List (List Nat)`), in send order.  `print` logging is dropped.
* `clean` performs ten `select` polls and discards whatever arrives; it
  sends nothing, so it is modelled as consuming ten transaction indices.
* Hex lines are modelled as the list of hex-digit values (each `< 16`)
  that follow the leading `:` marker of the line; the source's check of
  the `:` marker on the first line and the decoding of ASCII hex digits
  by `int(..., 16)` / `binascii.a2b_hex` are elided.  `read_hex_file`
  on an empty file raises an `IndexError` in the source; the model
  returns an error (no claim concerns empty input).
* `read_hex_file` returns `Except Nat (List Data)`: `Except.error n`
  models printing `Checksum mismatch in line n` and returning `None`.
-/

namespace Programmer

/-! ### STK500 byte constants, from the `command.h` header block -/

def Resp_STK_OK : Nat := 0x10
def Resp_STK_INSYNC : Nat := 0x14
def Sync_CRC_EOP : Nat := 0x20
def Cmnd_STK_GET_SYNC : Nat := 0x30
def Cmnd_STK_GET_PARAMETER : Nat := 0x41
def Cmnd_STK_SET_DEVICE : Nat := 0x42
def Cmnd_STK_SET_DEVICE_EXT : Nat := 0x45
def Cmnd_STK_ENTER_PROGMODE : Nat := 0x50
def Cmnd_STK_LEAVE_PROGMODE : Nat := 0x51
def Cmnd_STK_LOAD_ADDRESS : Nat := 0x55
def Cmnd_STK_PROG_PAGE : Nat := 0x64
def Cmnd_STK_READ_PAGE : Nat := 0x74
def Cmnd_STK_READ_SIGN : Nat := 0x75
def Parm_STK_HW_VER : Nat := 0x80
def Parm_STK_SW_MAJOR : Nat := 0x81
def Parm_STK_SW_MINOR : Nat := 0x82
def Parm_STK_VTARGET : Nat := 0x84
def Parm_STK_VADJUST : Nat := 0x85
def Parm_STK_OSC_PSCALE : Nat := 0x86
def Parm_STK_OSC_CMATCH : Nat := 0x87
def Parm_STK_SCK_DURATION : Nat := 0x89

/-! ### Transport model -/

/-- One receive transaction: `none` is a `select` timeout, `some f` is a
ready transport whose `recv` calls deliver bytes `f 0, f 1, f 2, ...`. -/
abbrev Rsp : Type := Option (Nat → Nat)

/-- The behaviour of the device over a whole session: transaction index
to response. -/
abbrev Env : Type := Nat → Rsp

/-! ### `SerialLine` primitives -/

/-- `SerialLine.ack`: wait (20s `select`) for a byte; success exactly when
the first byte is `Resp_STK_INSYNC` and the (blocking) second byte is
`Resp_STK_OK`. -/
def ack (rsp : Rsp) : Bool :=
  match rsp with
  | none => false
  | some f =>
    if f 0 = Resp_STK_INSYNC then
      if f 1 = Resp_STK_OK then true else false
    else false

/-- One `for it in range(n)` round of `SerialLine.sync`: each attempt
sends the get-sync packet and waits (0.1s `select`); on an in-sync first
byte it reads one more byte and returns.  The source never signals
failure to its caller: after the retry budget it just prints and
returns.  Result: next transaction index and the packets sent. -/
def syncAttempts (env : Env) (k : Nat) : Nat → Nat × List (List Nat)
  | 0 => (k, [])
  | n + 1 =>
    match env k with
    | none =>
      let r := syncAttempts env (k + 1) n
      (r.1, [Cmnd_STK_GET_SYNC, Sync_CRC_EOP] :: r.2)
    | some f =>
      if f 0 = Resp_STK_INSYNC then (k + 1, [[Cmnd_STK_GET_SYNC, Sync_CRC_EOP]])
      else
        let r := syncAttempts env (k + 1) n
        (r.1, [Cmnd_STK_GET_SYNC, Sync_CRC_EOP] :: r.2)

/-- `SerialLine.sync`: ten attempts. -/
def sync (env : Env) (k : Nat) : Nat × List (List Nat) :=
  syncAttempts env k 10

/-- `SerialLine.clean`: ten low-timeout polls, nothing sent. -/
def clean (k : Nat) : Nat := k + 10

/-- `SerialLine.get_param`: send get-parameter, wait (0.1s `select`);
on an in-sync first byte read two more bytes and return `reply[1]`, the
byte right after the in-sync marker; otherwise (or on timeout) `none`. -/
def get_param (env : Env) (k : Nat) (arg : Nat) : Option Nat × Nat × List (List Nat) :=
  let packet := [Cmnd_STK_GET_PARAMETER, arg, Sync_CRC_EOP]
  (match env k with
   | none => none
   | some f => if f 0 = Resp_STK_INSYNC then some (f 1) else none,
   k + 1, [packet])

/-- `SerialLine.set_device`: the fixed 22-byte device descriptor packet,
then `ack`. -/
def set_device (env : Env) (k : Nat) (devicecode : Nat) : Bool × Nat × List (List Nat) :=
  let packet := [Cmnd_STK_SET_DEVICE, devicecode,
    0x00, 0x00, 0x01, 0x01, 0x01, 0x01, 0x03, 0xff, 0xff, 0xff, 0xff,
    0x00, 0x80, 0x04, 0x00, 0x00, 0x00, 0x80, 0x00, Sync_CRC_EOP]
  (ack (env k), k + 1, [packet])

/-- `SerialLine.set_device_extended`, then `ack`. -/
def set_device_extended (env : Env) (k : Nat) : Bool × Nat × List (List Nat) :=
  let packet := [Cmnd_STK_SET_DEVICE_EXT, 0x05, 0x04, 0xd7, 0xc2, 0x00, Sync_CRC_EOP]
  (ack (env k), k + 1, [packet])

/-- `SerialLine.get_signature`: send read-signature, wait; on an in-sync
first byte read 4 more bytes (`reply` = 5 bytes); success when
`reply[4]` is `Resp_STK_OK`, returning `reply[1:4]`. -/
def get_signature (env : Env) (k : Nat) : Option (List Nat) × Nat × List (List Nat) :=
  let packet := [Cmnd_STK_READ_SIGN, Sync_CRC_EOP]
  (match env k with
   | none => none
   | some f =>
     if f 0 = Resp_STK_INSYNC then
       if f 4 = Resp_STK_OK then some [f 1, f 2, f 3] else none
     else none,
   k + 1, [packet])

/-- `SerialLine.tx`: send `command + Sync_CRC_EOP`, then `ack`. -/
def tx (env : Env) (k : Nat) (command : Nat) : Bool × Nat × List (List Nat) :=
  (ack (env k), k + 1, [[command, Sync_CRC_EOP]])

/-! ### Memory chunks (`Data`) and the page loops -/

/-- `Data`: a contiguous region.  `size` is a stored field (the loader
updates it separately from `data`, see `read_hex_file`). -/
structure Data where
  begin : Nat
  data : List Nat
  size : Nat
deriving DecidableEq

/-- `Data.__init__(begin, data)`: `size = len(data)`. -/
def Data.init (b : Nat) (d : List Nat) : Data :=
  ⟨b, d, d.length⟩

/-- The page block built by `SerialLine.upload` at byte offset `index`:
`c.data[index:index+0x80]`, padded with `0xff` up to `0x80` bytes when
short. -/
def uploadBlock (data : List Nat) (index : Nat) : List Nat :=
  let block := (data.drop index).take 0x80
  if block.length < 0x80 then block ++ List.replicate (0x80 - block.length) 0xff
  else block

/-- The expected comparison block built by `SerialLine.verify` at byte
offset `index` (same slicing and `0xff` padding as the program step). -/
def verifyBlock (data : List Nat) (index : Nat) : List Nat :=
  let block := (data.drop index).take 0x80
  if block.length < 0x80 then block ++ List.replicate (0x80 - block.length) 0xff
  else block

/-- Little-endian load-address packet: `0xff & addr`, `0xff & (addr >> 8)`. -/
def loadAddrPkt (addr : Nat) : List Nat :=
  [Cmnd_STK_LOAD_ADDRESS, addr % 256, addr / 256 % 256, Sync_CRC_EOP]

/-- Outcome of a protocol phase: success flag, next transaction index,
and the packets sent by the phase. -/
structure PageOut where
  ok : Bool
  key : Nat
  trace : List (List Nat)
deriving DecidableEq

/-- The `while index < len(c.data)` page loop of `SerialLine.upload`:
load-address + `ack`, program-page + `ack`, `addr += 0x40`,
`index += 0x80`; stop with `False` at the first failed `ack`. -/
def uploadPages (env : Env) (data : List Nat) (addr index k : Nat) : PageOut :=
  if h : index < data.length then
    let abPacket := loadAddrPkt addr
    if ack (env k) then
      let block := uploadBlock data index
      let pgPacket := [Cmnd_STK_PROG_PAGE, 0x00, 0x80, 0x46] ++ block ++ [Sync_CRC_EOP]
      if ack (env (k + 1)) then
        let r := uploadPages env data (addr + 0x40) (index + 0x80) (k + 2)
        ⟨r.ok, r.key, abPacket :: pgPacket :: r.trace⟩
      else ⟨false, k + 2, [abPacket, pgPacket]⟩
    else ⟨false, k + 1, [abPacket]⟩
  else ⟨true, k, []⟩
termination_by data.length - index
decreasing_by omega

/-- `SerialLine.upload`: chunks with `size == 0` are skipped; the first
failed page aborts with `False`. -/
def upload (env : Env) (k : Nat) : List Data → PageOut
  | [] => ⟨true, k, []⟩
  | c :: cs =>
    if c.size = 0 then upload env k cs
    else
      let r := uploadPages env c.data c.begin 0 k
      if r.ok then
        let rest := upload env r.key cs
        ⟨rest.ok, rest.key, r.trace ++ rest.trace⟩
      else ⟨false, r.key, r.trace⟩

/-- The page loop of `SerialLine.verify`: load-address + `ack` (failure
returns from `verify` altogether), read-page, then a 10s `select`; on an
in-sync first byte collect `0x80` page bytes and a status byte; a bad
status, a data mismatch or a timeout returns from `verify`; a non-in-sync
first byte falls through to the next page (the source has no `else`).
The `ok` flag is true when the loop ran to completion (no early `return`). -/
def verifyPages (env : Env) (data : List Nat) (addr index k : Nat) : PageOut :=
  if h : index < data.length then
    let abPacket := loadAddrPkt addr
    if ack (env k) then
      let block := verifyBlock data index
      let rdPacket := [Cmnd_STK_READ_PAGE, 0x00, 0x80, 0x46, Sync_CRC_EOP]
      match env (k + 1) with
      | none => ⟨false, k + 2, [abPacket, rdPacket]⟩
      | some f =>
        if f 0 = Resp_STK_INSYNC then
          let pageData := (List.range 0x80).map (fun j => f (j + 1))
          if f 129 = Resp_STK_OK then
            if pageData = block then
              let r := verifyPages env data (addr + 0x40) (index + 0x80) (k + 2)
              ⟨r.ok, r.key, abPacket :: rdPacket :: r.trace⟩
            else ⟨false, k + 2, [abPacket, rdPacket]⟩
          else ⟨false, k + 2, [abPacket, rdPacket]⟩
        else
          let r := verifyPages env data (addr + 0x40) (index + 0x80) (k + 2)
          ⟨r.ok, r.key, abPacket :: rdPacket :: r.trace⟩
    else ⟨false, k + 1, [abPacket]⟩
  else ⟨true, k, []⟩
termination_by data.length - index
decreasing_by all_goals omega

/-- `SerialLine.verify`: an early `return` inside a chunk stops the whole
verification; the function has no return value in the source. -/
def verify (env : Env) (k : Nat) : List Data → Nat × List (List Nat)
  | [] => (k, [])
  | c :: cs =>
    if c.size = 0 then verify env k cs
    else
      let r := verifyPages env c.data c.begin 0 k
      if r.ok then
        let rest := verify env r.key cs
        (rest.1, r.trace ++ rest.2)
      else (r.key, r.trace)

/-! ### `SerialLine.run` -/

/-- The parameter ids queried by `run`, in order. -/
def paramList : List Nat :=
  [Parm_STK_HW_VER, Parm_STK_SW_MAJOR, Parm_STK_SW_MINOR, 0x98,
   Parm_STK_VTARGET, Parm_STK_VADJUST, Parm_STK_OSC_PSCALE,
   Parm_STK_OSC_CMATCH, Parm_STK_SCK_DURATION]

/-- The parameter-query `for` loop of `run`: a `None` result breaks out
of the loop (the stored `self.params` dictionary plays no further role
and is dropped). -/
def paramLoop (env : Env) (k : Nat) : List Nat → Nat × List (List Nat)
  | [] => (k, [])
  | v :: vs =>
    let r := get_param env k v
    match r.1 with
    | none => (r.2.1, r.2.2)
    | some _ =>
      let rest := paramLoop env r.2.1 vs
      (rest.1, r.2.2 ++ rest.2)

/-- Result of a whole `run`: the packets sent, and whether the
enter-programming-mode `tx` succeeded (`entered` is set exactly where the
source observes `self.tx(Cmnd_STK_ENTER_PROGMODE, ...)` return `True`). -/
structure RunResult where
  trace : List (List Nat)
  entered : Bool
deriving DecidableEq

/-- The tail of `SerialLine.run` once enter-programming-mode has been
acknowledged (source lines 361-369): read the signature; on failure leave
programming mode and return; otherwise upload; on failure leave and
return; otherwise verify and leave.  Returns the packets sent. -/
def runAfterEnter (env : Env) (k : Nat) (chunks : List Data) : List (List Nat) :=
  let sg := get_signature env k
  match sg.1 with
  | none => sg.2.2 ++ (tx env sg.2.1 Cmnd_STK_LEAVE_PROGMODE).2.2
  | some _ =>
    let up := upload env sg.2.1 chunks
    if up.ok then
      let vr := verify env up.key chunks
      sg.2.2 ++ up.trace ++ vr.2 ++ (tx env vr.1 Cmnd_STK_LEAVE_PROGMODE).2.2
    else sg.2.2 ++ up.trace ++ (tx env up.key Cmnd_STK_LEAVE_PROGMODE).2.2

/-- `SerialLine.run`: double sync, clean, parameter loop, set-device,
set-device-extended, enter programming mode, then (on success) the
signature/upload/verify/leave tail.  Mirrors the source's early returns. -/
def run (env : Env) (chunks : List Data) : RunResult :=
  let s1 := sync env 0
  let s2 := sync env s1.1
  let k := clean s2.1
  let pr := paramLoop env k paramList
  let t0 := s1.2 ++ s2.2 ++ pr.2
  let sd := set_device env pr.1 0x86
  let t1 := t0 ++ sd.2.2
  if sd.1 then
    let sde := set_device_extended env sd.2.1
    let t2 := t1 ++ sde.2.2
    if sde.1 then
      let en := tx env sde.2.1 Cmnd_STK_ENTER_PROGMODE
      let t3 := t2 ++ en.2.2
      if en.1 then ⟨t3 ++ runAfterEnter env en.2.1 chunks, true⟩
      else ⟨t3, false⟩
    else ⟨t2, false⟩
  else ⟨t1, false⟩

/-! ### Hex file parsing (`parse_line`, `read_hex_file`) -/

/-- Value of a string of hex digits (`int(s, 16)` on digit values). -/
def hexVal (ds : List Nat) : Nat :=
  ds.foldl (fun a d => 16 * a + d) 0

/-- `binascii.a2b_hex`: consecutive digit pairs to bytes. -/
def pairBytes : List Nat → List Nat
  | d1 :: d0 :: rest => (16 * d1 + d0) :: pairBytes rest
  | _ => []

/-- The tuple returned by `parse_line`. -/
structure ParsedLine where
  size : Nat
  address : Nat
  ty : Nat
  data : List Nat
  checksum : Nat
  ok : Bool
deriving DecidableEq

/-- `parse_line(line)` on the digit values following the `:` marker.
Offsets are the source's minus one (the marker is elided):
`line[1:3]` is `take 2`, `line[3:7]` is `(drop 2).take 4`, `line[7:9]`
is `(drop 6).take 2`, `line[9:pos]` is `(drop 8).take (2*size)`, and
`line[pos:]` is `drop (8 + 2*size)`.  In Python,
`(~(sum & 0xFF) + 1) & 0xFF` equals `(256 - sum % 256) % 256`. -/
def parse_line (line : List Nat) : ParsedLine :=
  let size := hexVal (line.take 2)
  let address := hexVal ((line.drop 2).take 4)
  let ty := hexVal ((line.drop 6).take 2)
  let data := pairBytes ((line.drop 8).take (2 * size))
  let checksum := hexVal (line.drop (8 + 2 * size))
  let sum := size + address / 256 + address % 256 + ty + data.foldl (fun x y => x + y) 0
  ⟨size, address, ty, data, checksum, decide ((256 - sum % 256) % 256 = checksum)⟩

/-- Chunk extension: `chunks[index].size += size; chunks[index].data += data`. -/
def extendChunk (c : Data) (sz : Nat) (d : List Nat) : Data :=
  ⟨c.begin, c.data ++ d, c.size + sz⟩

/-- The `for line in file` loop of `read_hex_file`: on a checksum
mismatch report the 1-based line number `count`; if the record's address
equals `chunks[index].begin + chunks[index].size`, extend the current
chunk in place, otherwise append a fresh chunk and advance `index`. -/
def readLoop : List (List Nat) → List Data → Nat → Nat → Except Nat (List Data)
  | [], chunks, _, _ => Except.ok chunks
  | l :: ls, chunks, index, count =>
    let p := parse_line l
    if p.ok then
      let c := chunks.getD index (Data.init 0 [])
      if c.begin + c.size = p.address then
        readLoop ls (chunks.set index (extendChunk c p.size p.data)) index (count + 1)
      else
        readLoop ls (chunks ++ [Data.init p.address p.data]) (index + 1) (count + 1)
    else Except.error count

/-- `read_hex_file` on the list of (already line-split, marker-stripped)
hex lines.  The first line seeds chunk 0 (mismatch is reported as line 1);
the loop then starts at `count = 2`. -/
def read_hex_file : List (List Nat) → Except Nat (List Data)
  | [] => Except.error 0
  | l :: ls =>
    let p := parse_line l
    if p.ok then readLoop ls [Data.init p.address p.data] 0 2
    else Except.error 1

/-! ### Concrete environments used in witnesses and counterexamples -/

/-- A device that never responds: every `select` times out. -/
def noneEnv : Env := fun _ => none

/-- A device that acknowledges everything: first byte in-sync, every
further byte `Resp_STK_OK`. -/
def ackEnv : Env := fun _ =>
  some (fun j => if j = 0 then Resp_STK_INSYNC else Resp_STK_OK)

/-- A device that answers the two sync attempts and then goes silent. -/
def syncOnlyEnv : Env := fun k =>
  if k < 2 then some (fun _ => Resp_STK_INSYNC) else none

/-- The leave-programming-mode packet sent by `tx`. -/
def leavePacket : List Nat := [Cmnd_STK_LEAVE_PROGMODE, Sync_CRC_EOP]

/-- The set-device packet `run` sends (device code `0x86`). -/
def setDevicePacket : List Nat :=
  [Cmnd_STK_SET_DEVICE, 0x86,
   0x00, 0x00, 0x01, 0x01, 0x01, 0x01, 0x03, 0xff, 0xff, 0xff, 0xff,
   0x00, 0x80, 0x04, 0x00, 0x00, 0x00, 0x80, 0x00, Sync_CRC_EOP]

/-! ### Trace shape helper lemmas -/

lemma mem_syncAttempts (env : Env) :
    ∀ (n k : Nat) (p : List Nat), p ∈ (syncAttempts env k n).2 →
      p = [Cmnd_STK_GET_SYNC, Sync_CRC_EOP] := by
  intro n
  induction n with
  | zero => intro k p hp; simp [syncAttempts] at hp
  | succ n ih =>
    intro k p hp
    unfold syncAttempts at hp
    cases henv : env k with
    | none =>
      rw [henv] at hp
      simp only [List.mem_cons] at hp
      rcases hp with h | h
      · exact h
      · exact ih (k + 1) p h
    | some f =>
      rw [henv] at hp
      by_cases hf : f 0 = Resp_STK_INSYNC
      · simp only [hf, if_pos, List.mem_singleton] at hp
        simpa using hp
      · simp only [hf, if_neg, List.mem_cons, not_false_iff] at hp
        rcases hp with h | h
        · exact h
        · exact ih (k + 1) p h

lemma mem_paramLoop (env : Env) :
    ∀ (vs : List Nat) (k : Nat) (p : List Nat), p ∈ (paramLoop env k vs).2 →
      ∃ v, p = [Cmnd_STK_GET_PARAMETER, v, Sync_CRC_EOP] := by
  intro vs
  induction vs with
  | nil => intro k p hp; simp [paramLoop] at hp
  | cons v vs ih =>
    intro k p hp
    simp only [paramLoop] at hp
    cases hr : (get_param env k v).1 with
    | none =>
      rw [hr] at hp
      simp only [get_param, List.mem_singleton] at hp
      exact ⟨v, hp⟩
    | some x =>
      rw [hr] at hp
      simp only [get_param, List.cons_append, List.nil_append, List.mem_cons] at hp
      rcases hp with h | h
      · exact ⟨v, h⟩
      · exact ih _ p h

lemma mem_uploadPages (env : Env) (data : List Nat) :
    ∀ (m addr index k : Nat) (p : List Nat), data.length - index ≤ m →
      p ∈ (uploadPages env data addr index k).trace →
      p.head? = some Cmnd_STK_LOAD_ADDRESS ∨ p.head? = some Cmnd_STK_PROG_PAGE := by
  intro m
  induction m with
  | zero =>
    intro addr index k p hm hp
    rw [uploadPages] at hp
    have : ¬ index < data.length := by omega
    simp [this] at hp
  | succ m ih =>
    intro addr index k p hm hp
    rw [uploadPages] at hp
    by_cases hidx : index < data.length
    · simp only [hidx, dif_pos] at hp
      by_cases h1 : ack (env k)
      · simp only [h1, if_pos] at hp
        by_cases h2 : ack (env (k + 1))
        · simp only [h2, if_pos] at hp
          rcases List.mem_cons.mp hp with rfl | hp2
          · left; rfl
          rcases List.mem_cons.mp hp2 with rfl | hp3
          · right; rfl
          exact ih (addr + 0x40) (index + 0x80) (k + 2) p (by omega) hp3
        · simp only [h2, if_neg, not_false_iff] at hp
          rcases List.mem_cons.mp hp with rfl | hp2
          · left; rfl
          rcases List.mem_cons.mp hp2 with rfl | hp3
          · right; rfl
          exact absurd hp3 (List.not_mem_nil p)
      · simp only [h1, if_neg, not_false_iff] at hp
        rcases List.mem_cons.mp hp with rfl | hp2
        · left; rfl
        exact absurd hp2 (List.not_mem_nil p)
    · simp [hidx] at hp

lemma mem_upload (env : Env) :
    ∀ (cs : List Data) (k : Nat) (p : List Nat), p ∈ (upload env k cs).trace →
      p.head? = some Cmnd_STK_LOAD_ADDRESS ∨ p.head? = some Cmnd_STK_PROG_PAGE := by
  intro cs
  induction cs with
  | nil => intro k p hp; simp [upload] at hp
  | cons c cs ih =>
    intro k p hp
    simp only [upload] at hp
    by_cases hsz : c.size = 0
    · simp only [hsz, if_pos] at hp
      exact ih k p hp
    · simp only [hsz, if_neg, not_false_iff] at hp
      by_cases hok : (uploadPages env c.data c.begin 0 k).ok
      · simp only [hok, if_pos, List.mem_append] at hp
        rcases hp with h | h
        · exact mem_uploadPages env c.data (c.data.length) c.begin 0 k p (by omega) h
        · exact ih _ p h
      · simp only [hok, if_neg, not_false_iff] at hp
        exact mem_uploadPages env c.data (c.data.length) c.begin 0 k p (by omega) hp

lemma mem_verifyPages (env : Env) (data : List Nat) :
    ∀ (m addr index k : Nat) (p : List Nat), data.length - index ≤ m →
      p ∈ (verifyPages env data addr index k).trace →
      p.head? = some Cmnd_STK_LOAD_ADDRESS ∨ p.head? = some Cmnd_STK_READ_PAGE := by
  intro m
  induction m with
  | zero =>
    intro addr index k p hm hp
    rw [verifyPages] at hp
    have : ¬ index < data.length := by omega
    simp [this] at hp
  | succ m ih =>
    intro addr index k p hm hp
    rw [verifyPages] at hp
    by_cases hidx : index < data.length
    · simp only [hidx, dif_pos] at hp
      by_cases h1 : ack (env k)
      · simp only [h1, if_pos] at hp
        cases henv : env (k + 1) with
        | none =>
          rw [henv] at hp
          rcases List.mem_cons.mp hp with rfl | hp2
          · left; rfl
          rcases List.mem_cons.mp hp2 with rfl | hp3
          · right; rfl
          exact absurd hp3 (List.not_mem_nil p)
        | some f =>
          rw [henv] at hp
          by_cases hf : f 0 = Resp_STK_INSYNC
          · simp only [hf, if_pos] at hp
            by_cases hst : f 129 = Resp_STK_OK
            · simp only [hst, if_pos] at hp
              by_cases hcmp : (List.range 0x80).map (fun j => f (j + 1)) = verifyBlock data index
              · simp only [hcmp, if_pos] at hp
                rcases List.mem_cons.mp hp with rfl | hp2
                · left; rfl
                rcases List.mem_cons.mp hp2 with rfl | hp3
                · right; rfl
                exact ih (addr + 0x40) (index + 0x80) (k + 2) p (by omega) hp3
              · simp only [hcmp, if_neg, not_false_iff] at hp
                rcases List.mem_cons.mp hp with rfl | hp2
                · left; rfl
                rcases List.mem_cons.mp hp2 with rfl | hp3
                · right; rfl
                exact absurd hp3 (List.not_mem_nil p)
            · simp only [hst, if_neg, not_false_iff] at hp
              rcases List.mem_cons.mp hp with rfl | hp2
              · left; rfl
              rcases List.mem_cons.mp hp2 with rfl | hp3
              · right; rfl
              exact absurd hp3 (List.not_mem_nil p)
          · simp only [hf, if_neg, not_false_iff] at hp
            rcases List.mem_cons.mp hp with rfl | hp2
            · left; rfl
            rcases List.mem_cons.mp hp2 with rfl | hp3
            · right; rfl
            exact ih (addr + 0x40) (index + 0x80) (k + 2) p (by omega) hp3
      · simp only [h1, if_neg, not_false_iff] at hp
        rcases List.mem_cons.mp hp with rfl | hp2
        · left; rfl
        exact absurd hp2 (List.not_mem_nil p)
    · simp [hidx] at hp

lemma mem_verify (env : Env) :
    ∀ (cs : List Data) (k : Nat) (p : List Nat), p ∈ (verify env k cs).2 →
      p.head? = some Cmnd_STK_LOAD_ADDRESS ∨ p.head? = some Cmnd_STK_READ_PAGE := by
  intro cs
  induction cs with
  | nil => intro k p hp; simp [verify] at hp
  | cons c cs ih =>
    intro k p hp
    simp only [verify] at hp
    by_cases hsz : c.size = 0
    · simp only [hsz, if_pos] at hp
      exact ih k p hp
    · simp only [hsz, if_neg, not_false_iff] at hp
      by_cases hok : (verifyPages env c.data c.begin 0 k).ok
      · simp only [hok, if_pos, List.mem_append] at hp
        rcases hp with h | h
        · exact mem_verifyPages env c.data (c.data.length) c.begin 0 k p (by omega) h
        · exact ih _ p h
      · simp only [hok, if_neg, not_false_iff] at hp
        exact mem_verifyPages env c.data (c.data.length) c.begin 0 k p (by omega) hp

/-! ### Leave-packet counting -/

lemma count_leave_syncAttempts (env : Env) (n k : Nat) :
    ((syncAttempts env k n).2.count leavePacket) = 0 := by
  apply List.count_eq_zero.mpr
  intro hmem
  have h := mem_syncAttempts env n k leavePacket hmem
  exact absurd h (by decide)

lemma count_leave_sync (env : Env) (k : Nat) :
    ((sync env k).2.count leavePacket) = 0 :=
  count_leave_syncAttempts env 10 k

lemma count_leave_paramLoop (env : Env) (k : Nat) (vs : List Nat) :
    ((paramLoop env k vs).2.count leavePacket) = 0 := by
  apply List.count_eq_zero.mpr
  intro hmem
  obtain ⟨v, hv⟩ := mem_paramLoop env vs k leavePacket hmem
  simp [leavePacket, Cmnd_STK_LEAVE_PROGMODE, Cmnd_STK_GET_PARAMETER, Sync_CRC_EOP] at hv

lemma count_leave_upload (env : Env) (k : Nat) (cs : List Data) :
    ((upload env k cs).trace.count leavePacket) = 0 := by
  apply List.count_eq_zero.mpr
  intro hmem
  rcases mem_upload env cs k leavePacket hmem with h | h <;>
    exact absurd h (by decide)

lemma count_leave_verify (env : Env) (k : Nat) (cs : List Data) :
    (((verify env k cs).2).count leavePacket) = 0 := by
  apply List.count_eq_zero.mpr
  intro hmem
  rcases mem_verify env cs k leavePacket hmem with h | h <;>
    exact absurd h (by decide)

lemma count_leave_set_device (env : Env) (k d : Nat) :
    (((set_device env k d).2.2).count leavePacket) = 0 := by
  apply List.count_eq_zero.mpr
  intro hmem
  rcases List.mem_cons.mp hmem with he | h2
  · have := congrArg List.length he
    simp [leavePacket, set_device] at this
  · exact absurd h2 (List.not_mem_nil _)

lemma trace_set_device_extended (env : Env) (k : Nat) :
    (set_device_extended env k).2.2 =
      [[Cmnd_STK_SET_DEVICE_EXT, 0x05, 0x04, 0xd7, 0xc2, 0x00, Sync_CRC_EOP]] := rfl

lemma trace_tx (env : Env) (k c : Nat) :
    (tx env k c).2.2 = [[c, Sync_CRC_EOP]] := rfl

lemma trace_get_signature (env : Env) (k : Nat) :
    (get_signature env k).2.2 = [[Cmnd_STK_READ_SIGN, Sync_CRC_EOP]] := rfl

lemma count_leave_leave : List.count leavePacket [[Cmnd_STK_LEAVE_PROGMODE, Sync_CRC_EOP]] = 1 := by
  decide

lemma count_leave_sig : List.count leavePacket [[Cmnd_STK_READ_SIGN, Sync_CRC_EOP]] = 0 := by
  decide

lemma count_leave_enter : List.count leavePacket [[Cmnd_STK_ENTER_PROGMODE, Sync_CRC_EOP]] = 0 := by
  decide

lemma count_leave_sde :
    List.count leavePacket
      [[Cmnd_STK_SET_DEVICE_EXT, 0x05, 0x04, 0xd7, 0xc2, 0x00, Sync_CRC_EOP]] = 0 := by
  decide

lemma count_leave_runAfterEnter (env : Env) (k : Nat) (chunks : List Data) :
    ((runAfterEnter env k chunks).count leavePacket) = 1 := by
  simp only [runAfterEnter]
  cases hsg : (get_signature env k).1 with
  | none =>
    simp [List.count_append, List.count_cons, trace_get_signature, trace_tx,
      count_leave_upload, count_leave_verify]
    try decide
  | some v =>
    by_cases hup : (upload env (get_signature env k).2.1 chunks).ok
    · simp [hup, List.count_append, List.count_cons, trace_get_signature, trace_tx,
        count_leave_upload, count_leave_verify]
      try decide
    · simp [hup, List.count_append, List.count_cons, trace_get_signature, trace_tx,
        count_leave_upload, count_leave_verify]
      try decide

/-- C1: whenever the enter-programming-mode command is acknowledged,
`run` sends the leave-programming-mode packet exactly once before
returning, on every control path (signature failure, upload failure,
verify failure or success); when programming mode was never entered it is
sent zero times (`Bool.toNat true = 1`, `Bool.toNat false = 0`). -/
theorem C1_leave_progmode_exactly_once (env : Env) (chunks : List Data) :
    ((run env chunks).trace.count leavePacket) = (run env chunks).entered.toNat := by
  simp only [run]
  split_ifs with hsd hsde hen <;>
    simp [List.count_append, List.count_cons, count_leave_sync, count_leave_paramLoop,
      count_leave_set_device, trace_set_device_extended, trace_tx,
      count_leave_runAfterEnter, count_leave_enter, count_leave_sde] <;>
    try decide

/-! ### C2: acknowledge parsing -/

/-- C2: `ack` returns `True` exactly when the first byte received is the
in-sync marker `0x14` and the second is the ok byte `0x10`.  The
contrapositive covers the three failure shapes of the claim: a first byte
other than in-sync, an in-sync first byte with a non-ok second byte, and
a timeout (`rsp = none`, no `f` exists) each give `False`. -/
theorem C2_ack_characterization (rsp : Rsp) :
    ack rsp = true ↔
      ∃ f, rsp = some f ∧ f 0 = Resp_STK_INSYNC ∧ f 1 = Resp_STK_OK := by
  cases rsp with
  | none => simp [ack]
  | some f =>
    simp only [ack]
    by_cases h0 : f 0 = Resp_STK_INSYNC
    · by_cases h1 : f 1 = Resp_STK_OK
      · simp [h0, h1]
      · simp only [h0, if_pos, h1, if_neg, not_false_iff]
        constructor
        · intro h; exact absurd h (by decide)
        · rintro ⟨g, hg, hg0, hg1⟩
          cases Option.some.injEq .. ▸ hg
          exact absurd (by exact hg1) h1
    · simp only [h0, if_neg, not_false_iff]
      constructor
      · intro h; exact absurd h (by decide)
      · rintro ⟨g, hg, hg0, hg1⟩
        cases Option.some.injEq .. ▸ hg
        exact absurd (by exact hg0) h0

/-! ### C7: program and verify build the same padded page block -/

/-- C7: for every chunk payload and page offset, the `0x80`-byte page
block built by `upload` (short final window padded with `0xff`) is equal
to the expected comparison block built by `verify`, and both equal the
window followed by exactly the padding needed to reach `0x80` bytes. -/
theorem C7_upload_verify_blocks_agree (data : List Nat) (index : Nat) :
    uploadBlock data index = verifyBlock data index ∧
    uploadBlock data index =
      (data.drop index).take 0x80 ++
        List.replicate (0x80 - ((data.drop index).take 0x80).length) 0xff := by
  constructor
  · rfl
  · simp only [uploadBlock]
    by_cases h : ((data.drop index).take 0x80).length < 0x80
    · rw [if_pos h]
    · have hle : ((data.drop index).take 0x80).length ≤ 0x80 :=
        List.length_take_le 0x80 (data.drop index)
      have hlen : ((data.drop index).take 0x80).length = 0x80 := by omega
      rw [if_neg h, hlen]
      simp

/-! ### C5: what happens when sync fails -/

/-- C5 counterexample: against a device that never responds, both sync
calls exhaust their ten attempts without an in-sync reply (`sync`
consumes exactly ten transaction slots), yet `run` still sends the first
get-parameter query and the set-device command afterwards — the claim
that a failed sync aborts the run before any parameter query or device
setup is false on this input. -/
theorem C5_counterexample :
    (sync noneEnv 0).1 = 10 ∧ (sync noneEnv 0).2.length = 10 ∧
    [Cmnd_STK_GET_PARAMETER, Parm_STK_HW_VER, Sync_CRC_EOP] ∈ (run noneEnv []).trace ∧
    setDevicePacket ∈ (run noneEnv []).trace := by
  decide

/-- C5 amended: `sync` has no failure signal, so a run whose sync
handshake receives no reply within any of its attempts is not aborted:
`run` proceeds to the parameter-query phase and sends the set-device
command (the run only stops at the first failed acknowledge of a later
phase). -/
theorem C5_sync_failure_does_not_abort (env : Env) (chunks : List Data)
    (h : ∀ k, env k = none) :
    [Cmnd_STK_GET_PARAMETER, Parm_STK_HW_VER, Sync_CRC_EOP] ∈ (run env chunks).trace ∧
    setDevicePacket ∈ (run env chunks).trace := by
  have henv : env = noneEnv := funext h
  subst henv
  have htr : (run noneEnv chunks).trace = (run noneEnv []).trace := rfl
  rw [htr]
  decide

theorem C5_sync_failure_witness :
    [Cmnd_STK_GET_PARAMETER, Parm_STK_HW_VER, Sync_CRC_EOP] ∈ (run noneEnv []).trace ∧
    setDevicePacket ∈ (run noneEnv []).trace :=
  C5_sync_failure_does_not_abort noneEnv [] (fun _ => rfl)

/-! ### C8: the parameter-query phase -/

/-- C8 counterexample: with a device that answers both sync attempts and
then goes silent, the first parameter query times out (`get_param`
returns `None`), yet `run` still sends the set-device command afterwards
— the claim that any deviation in the parameter phase aborts the whole
run with no device setup sent is false on this input. -/
theorem C8_counterexample :
    (get_param syncOnlyEnv 12 Parm_STK_HW_VER).1 = none ∧
    setDevicePacket ∈ (run syncOnlyEnv []).trace := by
  decide

/-- C8 amended: for each queried parameter id the session sends
get-parameter and, on an in-sync first byte, reads two further bytes and
records the byte right after the in-sync marker as the value; a
non-in-sync first byte or a timeout yields `None`, which only breaks the
parameter loop — the run always goes on to send the set-device command
regardless of the parameter phase's outcome. -/
theorem C8_param_phase_behaviour :
    (∀ (env : Env) (k arg : Nat) (f : Nat → Nat), env k = some f →
        f 0 = Resp_STK_INSYNC → (get_param env k arg).1 = some (f 1)) ∧
    (∀ (env : Env) (k arg : Nat) (f : Nat → Nat), env k = some f →
        f 0 ≠ Resp_STK_INSYNC → (get_param env k arg).1 = none) ∧
    (∀ (env : Env) (k arg : Nat), env k = none → (get_param env k arg).1 = none) ∧
    (∀ (env : Env) (chunks : List Data), setDevicePacket ∈ (run env chunks).trace) := by
  refine ⟨?_, ?_, ?_, ?_⟩
  · intro env k arg f hf h0
    simp [get_param, hf, h0]
  · intro env k arg f hf h0
    simp [get_param, hf, h0]
  · intro env k arg hf
    simp [get_param, hf]
  · intro env chunks
    simp only [run]
    split_ifs <;>
      simp [set_device, setDevicePacket, List.mem_append]

theorem C8_param_phase_witness :
    (get_param ackEnv 0 Parm_STK_HW_VER).1 = some Resp_STK_OK ∧
    setDevicePacket ∈ (run ackEnv []).trace :=
  ⟨C8_param_phase_behaviour.1 ackEnv 0 Parm_STK_HW_VER _ rfl rfl,
   C8_param_phase_behaviour.2.2.2 ackEnv []⟩

/-! ### C6: load-address stepping in `upload` -/

/-- The load-address packets of a trace. -/
def loadAddrPackets (t : List (List Nat)) : List (List Nat) :=
  t.filter (fun p => p.head? == some Cmnd_STK_LOAD_ADDRESS)

lemma uploadPages_allAck (env : Env) (data : List Nat)
    (hack : ∀ j, ack (env j) = true) :
    ∀ (m addr index k : Nat), data.length - index ≤ m →
      (uploadPages env data addr index k).ok = true ∧
      loadAddrPackets (uploadPages env data addr index k).trace =
        (List.range ((data.length - index + 127) / 128)).map
          (fun i => loadAddrPkt (addr + 64 * i)) := by
  intro m
  induction m with
  | zero =>
    intro addr index k hm
    rw [uploadPages]
    have hnl : ¬ index < data.length := by omega
    have h0 : (data.length - index + 127) / 128 = 0 := by omega
    simp [hnl, h0, loadAddrPackets]
  | succ m ih =>
    intro addr index k hm
    rw [uploadPages]
    by_cases hidx : index < data.length
    · simp only [hidx, dif_pos, hack, if_pos]
      obtain ⟨iho, iht⟩ := ih (addr + 0x40) (index + 0x80) (k + 2) (by omega)
      refine ⟨iho, ?_⟩
      have hfilter : loadAddrPackets
          (loadAddrPkt addr ::
            ([Cmnd_STK_PROG_PAGE, 0x00, 0x80, 0x46] ++ uploadBlock data index ++
              [Sync_CRC_EOP]) ::
            (uploadPages env data (addr + 0x40) (index + 0x80) (k + 2)).trace) =
          loadAddrPkt addr ::
            loadAddrPackets (uploadPages env data (addr + 0x40) (index + 0x80) (k + 2)).trace := by
        simp [loadAddrPackets, loadAddrPkt, List.filter_cons,
          Cmnd_STK_PROG_PAGE, Cmnd_STK_LOAD_ADDRESS]
      rw [hfilter, iht]
      have harith : (data.length - index + 127) / 128 =
          (data.length - (index + 0x80) + 127) / 128 + 1 := by omega
      rw [harith, List.range_succ_eq_map, List.map_cons, List.map_map]
      have hstep : ∀ i : Nat, addr + 0x40 + 64 * i = addr + 64 * (i + 1) := by
        intro i; ring
      simp [Function.comp, hstep, Nat.succ_eq_add_one]
    · have h0 : (data.length - index + 127) / 128 = 0 := by omega
      simp [hidx, h0, loadAddrPackets]

lemma upload_single_loadAddrs (env : Env) (c : Data) (k : Nat)
    (hack : ∀ j, ack (env j) = true) (hsz : c.size = c.data.length) :
    loadAddrPackets (upload env k [c]).trace =
      (List.range ((c.data.length + 127) / 128)).map
        (fun i => loadAddrPkt (c.begin + 64 * i)) := by
  by_cases h0 : c.size = 0
  · have hd : c.data.length = 0 := by omega
    simp [upload, h0, hd, loadAddrPackets]
  · obtain ⟨hok, htr⟩ :=
      uploadPages_allAck env c.data hack c.data.length c.begin 0 k (by omega)
    simp only [upload, h0, if_neg, not_false_iff, hok, if_pos]
    simpa using htr

/-- C6 amended: with `pageSize = 128` and a fully acknowledging device,
the `i`-th load-address command sent by `upload` for a chunk with byte
origin `B` encodes, as a little-endian 16-bit value, `B + i * 64` — the
initial address is the chunk's *byte* origin (the source never halves
it), and the address advances by exactly 64 (`pageSize / 2`) between
consecutive pages. -/
theorem C6_load_address_stepping (env : Env) (c : Data) (k : Nat)
    (hack : ∀ j, ack (env j) = true) (hsz : c.size = c.data.length) :
    loadAddrPackets (upload env k [c]).trace =
      (List.range ((c.data.length + 127) / 128)).map
        (fun i => [Cmnd_STK_LOAD_ADDRESS, (c.begin + 64 * i) % 256,
          (c.begin + 64 * i) / 256 % 256, Sync_CRC_EOP]) :=
  upload_single_loadAddrs env c k hack hsz

theorem C6_load_address_witness :
    loadAddrPackets (upload ackEnv 0 [⟨0, [1, 2], 2⟩]).trace =
      [[Cmnd_STK_LOAD_ADDRESS, 0, 0, Sync_CRC_EOP]] := by
  have h := C6_load_address_stepping ackEnv ⟨0, [1, 2], 2⟩ 0 (fun _ => rfl) rfl
  rw [h]
  decide

/-- C6 counterexample: a chunk with byte origin `2` and one data byte.
The only load-address packet sent by `upload` encodes the address `2`,
while the claim predicts the word address `2 / 2 + 0 * 64 = 1`; the two
packets differ, so the claim is false on this input. -/
theorem C6_counterexample :
    loadAddrPackets (upload ackEnv 0 [⟨2, [0], 1⟩]).trace =
      [[Cmnd_STK_LOAD_ADDRESS, 2, 0, Sync_CRC_EOP]] ∧
    ([Cmnd_STK_LOAD_ADDRESS, 2, 0, Sync_CRC_EOP] : List Nat) ≠
      [Cmnd_STK_LOAD_ADDRESS, 2 / 2 + 0 * 64, 0, Sync_CRC_EOP] := by
  constructor
  · have h := upload_single_loadAddrs ackEnv ⟨2, [0], 1⟩ 0 (fun _ => rfl) rfl
    rw [h]
    decide
  · decide

/-! ### Concrete hex lines used in witnesses and counterexamples

Each is the digit list of a record `:08 aaaa 00 <8 zero bytes> cc` with
the correct two's-complement checksum (`0xF8` for address `0x0000`,
`0xF0` for `0x0008`, `0xE8` for `0x0010`). -/

def line00 : List Nat := [0, 8, 0, 0, 0, 0, 0, 0] ++ List.replicate 16 0 ++ [15, 8]

def line08 : List Nat := [0, 8, 0, 0, 0, 8, 0, 0] ++ List.replicate 16 0 ++ [15, 0]

def line10 : List Nat := [0, 8, 0, 0, 1, 0, 0, 0] ++ List.replicate 16 0 ++ [14, 8]

/-- Record `:08 0018 00 <8 zero bytes> E0` (checksum `0xE0`). -/
def line18 : List Nat := [0, 8, 0, 0, 1, 8, 0, 0] ++ List.replicate 16 0 ++ [14, 0]

/-- `line08` with one checksum digit changed (`0xF1` instead of `0xF0`). -/
def line08bad : List Nat := [0, 8, 0, 0, 0, 8, 0, 0] ++ List.replicate 16 0 ++ [15, 1]

/-! ### C3: chunk coalescing

Throughout `read_hex_file` the index always points at the last chunk:
the loop either rewrites the last chunk in place or appends a new one
and advances the index.  The two lemmas below phrase a chunk list whose
last (current) chunk is `cur` as `front ++ [cur]` with
`index = front.length`. -/

lemma getD_append_last (front : List Data) (cur d : Data) :
    (front ++ [cur]).getD front.length d = cur := by
  induction front with
  | nil => rfl
  | cons a l ih => simp [ih]

lemma set_append_last (front : List Data) (cur y : Data) :
    (front ++ [cur]).set front.length y = front ++ [y] := by
  induction front with
  | nil => rfl
  | cons a l ih => simp [ih]

/-- C3: for every reachable loader state (chunks `front ++ [cur]` with
the current chunk `cur` last and the index pointing at it) and every
valid record, one loop step appends the record's payload to the current
chunk exactly when the record's address equals the current chunk's
origin plus its stored length, and otherwise appends a fresh chunk at
that address which becomes the current chunk of the continuation (it is
the new last chunk and the index moves to it).  The concrete instances:
8-byte records at `0x0000` then `0x0008` give one 16-byte chunk at
`0x0000`; at `0x0000` then `0x0010` they give two chunks; and with a
third record at `0x0018` the third record extends the *second* (current)
chunk, not the first. -/
theorem C3_chunk_coalescing :
    (∀ (ls : List (List Nat)) (front : List Data) (cur : Data) (count : Nat)
        (l : List Nat), (parse_line l).ok = true →
      cur.begin + cur.size = (parse_line l).address →
      readLoop (l :: ls) (front ++ [cur]) front.length count =
        readLoop ls
          (front ++ [extendChunk cur (parse_line l).size (parse_line l).data])
          front.length (count + 1)) ∧
    (∀ (ls : List (List Nat)) (front : List Data) (cur : Data) (count : Nat)
        (l : List Nat), (parse_line l).ok = true →
      cur.begin + cur.size ≠ (parse_line l).address →
      readLoop (l :: ls) (front ++ [cur]) front.length count =
        readLoop ls
          ((front ++ [cur]) ++ [Data.init (parse_line l).address (parse_line l).data])
          (front ++ [cur]).length (count + 1)) ∧
    (∀ l1 l2 : List Nat, (parse_line l1).ok = true → (parse_line l2).ok = true →
      (parse_line l2).address = (parse_line l1).address + (parse_line l1).data.length →
      read_hex_file [l1, l2] = Except.ok
        [⟨(parse_line l1).address, (parse_line l1).data ++ (parse_line l2).data,
          (parse_line l1).data.length + (parse_line l2).size⟩]) ∧
    (∀ l1 l2 : List Nat, (parse_line l1).ok = true → (parse_line l2).ok = true →
      (parse_line l2).address ≠ (parse_line l1).address + (parse_line l1).data.length →
      read_hex_file [l1, l2] = Except.ok
        [⟨(parse_line l1).address, (parse_line l1).data, (parse_line l1).data.length⟩,
         ⟨(parse_line l2).address, (parse_line l2).data, (parse_line l2).data.length⟩]) ∧
    read_hex_file [line00, line08] = Except.ok [⟨0, List.replicate 16 0, 16⟩] ∧
    read_hex_file [line00, line10] = Except.ok
      [⟨0, List.replicate 8 0, 8⟩, ⟨0x10, List.replicate 8 0, 8⟩] ∧
    read_hex_file [line00, line10, line18] = Except.ok
      [⟨0, List.replicate 8 0, 8⟩, ⟨0x10, List.replicate 16 0, 16⟩] := by
  refine ⟨?_, ?_, ?_, ?_, by rfl, by rfl, by rfl⟩
  · intro ls front cur count l hok hcond
    simp only [readLoop, hok, if_pos]
    rw [getD_append_last, if_pos hcond, set_append_last]
  · intro ls front cur count l hok hcond
    simp only [readLoop, hok, if_pos]
    rw [getD_append_last, if_neg hcond]
    have hlen : front.length + 1 = (front ++ [cur]).length := by simp
    rw [hlen]
  · intro l1 l2 h1 h2 heq
    simp only [read_hex_file, h1, if_pos, readLoop, h2, Data.init, List.getD,
      extendChunk, heq]
    simp
  · intro l1 l2 h1 h2 hne
    simp only [read_hex_file, h1, if_pos, readLoop, h2, Data.init, List.getD,
      extendChunk]
    rw [if_neg (fun h => hne h.symm)]
    simp [readLoop]

theorem C3_chunk_coalescing_witness :
    read_hex_file [line00, line08] = Except.ok
      [⟨(parse_line line00).address,
        (parse_line line00).data ++ (parse_line line08).data,
        (parse_line line00).data.length + (parse_line line08).size⟩] :=
  C3_chunk_coalescing.2.2.1 line00 line08 (by decide) (by decide) (by decide)

/-! ### C4: checksum validation -/

lemma hexVal_pair (a b : Nat) : hexVal [a, b] = 16 * a + b := by
  simp [hexVal]

/-- Slicing a line `front ++ t` where `front` holds exactly the count,
address, type and payload digits (so `t` is the checksum field): every
field except the checksum is computed from `front` alone, and the
checksum is `hexVal t`. -/
lemma parse_line_append (front t : List Nat)
    (hfl : front.length = 8 + 2 * hexVal (front.take 2)) :
    (parse_line (front ++ t)).size = hexVal (front.take 2) ∧
    (parse_line (front ++ t)).address = hexVal ((front.drop 2).take 4) ∧
    (parse_line (front ++ t)).ty = hexVal ((front.drop 6).take 2) ∧
    (parse_line (front ++ t)).data = pairBytes (front.drop 8) ∧
    (parse_line (front ++ t)).checksum = hexVal t := by
  have h2 : (2 : Nat) ≤ front.length := by omega
  have h6 : (6 : Nat) ≤ front.length := by omega
  have h8 : (8 : Nat) ≤ front.length := by omega
  have hsize : (front ++ t).take 2 = front.take 2 :=
    List.take_append_of_le_length h2
  have haddr : ((front ++ t).drop 2).take 4 = (front.drop 2).take 4 := by
    rw [List.drop_append_of_le_length h2]
    exact List.take_append_of_le_length (by simp; omega)
  have hty : ((front ++ t).drop 6).take 2 = (front.drop 6).take 2 := by
    rw [List.drop_append_of_le_length h6]
    exact List.take_append_of_le_length (by simp; omega)
  have hdata : ((front ++ t).drop 8).take (2 * hexVal (front.take 2)) = front.drop 8 := by
    rw [List.drop_append_of_le_length h8]
    have hl8 : (front.drop 8).length = 2 * hexVal (front.take 2) := by
      simp [hfl]
    rw [List.take_append_of_le_length (by omega), ← hl8, List.take_length]
  have hck : (front ++ t).drop (8 + 2 * hexVal (front.take 2)) = t := by
    rw [← hfl, List.drop_left]
  refine ⟨?_, ?_, ?_, ?_, ?_⟩ <;>
    simp [parse_line, hsize, haddr, hty, hdata, hck]

/-- `parse_line` accepts exactly when the two's-complement (mod 256) of
the field sum equals the checksum field. -/
lemma parse_line_ok_iff (l : List Nat) :
    (parse_line l).ok = true ↔
      (256 - ((parse_line l).size + (parse_line l).address / 256 +
        (parse_line l).address % 256 + (parse_line l).ty +
        (parse_line l).data.foldl (fun x y => x + y) 0) % 256) % 256 =
      (parse_line l).checksum := by
  simp [parse_line]

/-- C4: `parse_line` accepts a line exactly when the two's-complement
mod 256 of the sum of the byte count, the address bytes, the record type
and every payload byte equals the trailing checksum
(`parse_line_ok_iff`); consequently changing either hex digit of the
checksum field of an otherwise valid line to a different digit causes
rejection, and `read_hex_file` reports the first bad line's 1-based
number and fails. -/
theorem C4_checksum_validation :
    (∀ (front : List Nat) (d1 d0 e : Nat),
      front.length = 8 + 2 * hexVal (front.take 2) →
      (parse_line (front ++ [d1, d0])).ok = true → e ≠ d1 →
      (parse_line (front ++ [e, d0])).ok = false) ∧
    (∀ (front : List Nat) (d1 d0 e : Nat),
      front.length = 8 + 2 * hexVal (front.take 2) →
      (parse_line (front ++ [d1, d0])).ok = true → e ≠ d0 →
      (parse_line (front ++ [d1, e])).ok = false) ∧
    (∀ (gs : List (List Nat)) (l : List Nat),
      (∀ g ∈ gs, (parse_line g).ok = true) → (parse_line l).ok = false →
      read_hex_file (gs ++ [l]) = Except.error (gs.length + 1)) := by
  refine ⟨?_, ?_, ?_⟩
  · intro front d1 d0 e hfl hok hne
    obtain ⟨hs1, ha1, ht1, hd1, hc1⟩ := parse_line_append front [d1, d0] hfl
    obtain ⟨hs2, ha2, ht2, hd2, hc2⟩ := parse_line_append front [e, d0] hfl
    cases hok2 : (parse_line (front ++ [e, d0])).ok with
    | false => rfl
    | true =>
      exfalso
      rw [parse_line_ok_iff, hs1, ha1, ht1, hd1, hc1, hexVal_pair] at hok
      rw [parse_line_ok_iff, hs2, ha2, ht2, hd2, hc2, hexVal_pair] at hok2
      omega
  · intro front d1 d0 e hfl hok hne
    obtain ⟨hs1, ha1, ht1, hd1, hc1⟩ := parse_line_append front [d1, d0] hfl
    obtain ⟨hs2, ha2, ht2, hd2, hc2⟩ := parse_line_append front [d1, e] hfl
    cases hok2 : (parse_line (front ++ [d1, e])).ok with
    | false => rfl
    | true =>
      exfalso
      rw [parse_line_ok_iff, hs1, ha1, ht1, hd1, hc1, hexVal_pair] at hok
      rw [parse_line_ok_iff, hs2, ha2, ht2, hd2, hc2, hexVal_pair] at hok2
      omega
  · intro gs l hgs hl
    have hloop : ∀ (gs2 : List (List Nat)) (chunks : List Data) (index count : Nat),
        (∀ g ∈ gs2, (parse_line g).ok = true) →
        readLoop (gs2 ++ [l]) chunks index count = Except.error (count + gs2.length) := by
      intro gs2
      induction gs2 with
      | nil =>
        intro chunks index count hg
        simp [readLoop, hl]
      | cons g gs2 ih =>
        intro chunks index count hg
        have hgok : (parse_line g).ok = true := hg g (by simp)
        simp only [List.cons_append, readLoop, hgok, if_pos, List.length_cons,
          List.append_eq]
        have harith : count + 1 + gs2.length = count + (gs2.length + 1) := by omega
        by_cases hcond : (chunks.getD index (Data.init 0 [])).begin +
            (chunks.getD index (Data.init 0 [])).size = (parse_line g).address
        · rw [if_pos hcond,
            ih _ _ (count + 1) (fun g2 hg2 => hg g2 (List.mem_cons_of_mem g hg2)), harith]
        · rw [if_neg hcond,
            ih _ _ (count + 1) (fun g2 hg2 => hg g2 (List.mem_cons_of_mem g hg2)), harith]
    cases gs with
    | nil => simp [read_hex_file, hl]
    | cons g gs =>
      have hgok : (parse_line g).ok = true := hgs g (by simp)
      simp only [List.cons_append, read_hex_file, hgok, if_pos, List.length_cons]
      rw [hloop gs _ 0 2 (fun g2 hg2 => hgs g2 (List.mem_cons_of_mem g hg2))]
      congr 1
      omega

theorem C4_checksum_validation_witness :
    read_hex_file [line00, line08bad] = Except.error 2 := by
  have h := C4_checksum_validation.2.2 [line00] line08bad (by decide) (by decide)
  simpa using h

/-! ### C10: chunk sizes match payload lengths -/

lemma readLoop_size_inv :
    ∀ (ls : List (List Nat)) (front : List Data) (cur : Data) (count : Nat)
      (cs : List Data),
      (∀ l ∈ ls, (parse_line l).size = (parse_line l).data.length) →
      (∀ c ∈ front ++ [cur], c.size = c.data.length) →
      readLoop ls (front ++ [cur]) front.length count = Except.ok cs →
      ∀ c ∈ cs, c.size = c.data.length := by
  intro ls
  induction ls with
  | nil =>
    intro front cur count cs hls hinv h
    simp only [readLoop, Except.ok.injEq] at h
    subst h
    exact hinv
  | cons l ls ih =>
    intro front cur count cs hls hinv h
    simp only [readLoop] at h
    by_cases hok : (parse_line l).ok = true
    · simp only [hok, if_pos] at h
      rw [getD_append_last] at h
      have hlsize : (parse_line l).size = (parse_line l).data.length :=
        hls l (by simp)
      by_cases hcond : cur.begin + cur.size = (parse_line l).address
      · rw [if_pos hcond, set_append_last] at h
        refine ih front (extendChunk cur (parse_line l).size (parse_line l).data)
          (count + 1) cs (fun l2 hl2 => hls l2 (List.mem_cons_of_mem l hl2)) ?_ h
        intro c hc
        rcases List.mem_append.mp hc with hc | hc
        · exact hinv c (List.mem_append.mpr (Or.inl hc))
        · have hce : c = extendChunk cur (parse_line l).size (parse_line l).data := by
            simpa using hc
          subst hce
          have hcur : cur.size = cur.data.length :=
            hinv cur (List.mem_append.mpr (Or.inr (by simp)))
          simp [extendChunk, hcur, hlsize]
      · rw [if_neg hcond] at h
        have hlen : front.length + 1 = (front ++ [cur]).length := by simp
        rw [hlen] at h
        refine ih (front ++ [cur])
          (Data.init (parse_line l).address (parse_line l).data)
          (count + 1) cs (fun l2 hl2 => hls l2 (List.mem_cons_of_mem l hl2)) ?_ h
        intro c hc
        rcases List.mem_append.mp hc with hc | hc
        · exact hinv c hc
        · have hce : c = Data.init (parse_line l).address (parse_line l).data := by
            simpa using hc
          subst hce
          rfl
    · simp [hok] at h

/-- C10: for every accepted input whose records each declare a byte
count equal to their payload length, every chunk returned by
`read_hex_file` satisfies `size = len(data)` — both for freshly created
chunks and after each extension (which adds the declared size to `size`
but the payload bytes to `data`). -/
theorem C10_size_matches_payload :
    ∀ (ls : List (List Nat)) (cs : List Data),
      (∀ l ∈ ls, (parse_line l).size = (parse_line l).data.length) →
      read_hex_file ls = Except.ok cs →
      ∀ c ∈ cs, c.size = c.data.length := by
  intro ls cs hls h
  cases ls with
  | nil => simp [read_hex_file] at h
  | cons l ls =>
    simp only [read_hex_file] at h
    by_cases hok : (parse_line l).ok = true
    · simp only [hok, if_pos] at h
      exact readLoop_size_inv ls []
        (Data.init (parse_line l).address (parse_line l).data) 2 cs
        (fun l2 hl2 => hls l2 (List.mem_cons_of_mem l hl2)) (by intro c hc; simp at hc; subst hc; rfl) h
    · simp [hok] at h

theorem C10_size_matches_payload_witness :
    (Data.mk 0 (List.replicate 8 0) 8).size = (Data.mk 0 (List.replicate 8 0) 8).data.length :=
  C10_size_matches_payload [line00, line10]
    [Data.mk 0 (List.replicate 8 0) 8, Data.mk 0x10 (List.replicate 8 0) 8]
    (by decide) (by rfl) (Data.mk 0 (List.replicate 8 0) 8) (by decide)

/-! ### C9: maximality of the chunk list -/

/-- No chunk in the list is directly extendable by its successor:
consecutive chunks `a, b` satisfy `a.begin + a.size ≠ b.begin`. -/
def noMerge : List Data → Bool
  | a :: b :: t => (decide (a.begin + a.size ≠ b.begin)) && noMerge (b :: t)
  | _ => true

lemma noMerge_replace_last :
    ∀ (front : List Data) (x y : Data), y.begin = x.begin →
      noMerge (front ++ [x]) = true → noMerge (front ++ [y]) = true := by
  intro front
  induction front with
  | nil => intro x y hb h; rfl
  | cons a front ih =>
    intro x y hb h
    cases front with
    | nil =>
      simp [noMerge] at h ⊢
      rw [hb]
      exact h
    | cons b front2 =>
      simp only [List.cons_append, noMerge, Bool.and_eq_true] at h ⊢
      exact ⟨h.1, ih x y hb h.2⟩

lemma noMerge_snoc :
    ∀ (front : List Data) (x y : Data),
      noMerge (front ++ [x]) = true → x.begin + x.size ≠ y.begin →
      noMerge ((front ++ [x]) ++ [y]) = true := by
  intro front
  induction front with
  | nil =>
    intro x y h hne
    simp [noMerge, hne]
  | cons a front ih =>
    intro x y h hne
    cases front with
    | nil =>
      simp [noMerge] at h ⊢
      exact ⟨h, hne⟩
    | cons b front2 =>
      simp only [List.cons_append, List.append_eq, noMerge, Bool.and_eq_true] at h ⊢
      exact ⟨h.1, ih x y h.2 hne⟩

lemma readLoop_noMerge_inv :
    ∀ (ls : List (List Nat)) (front : List Data) (cur : Data) (count : Nat)
      (cs : List Data),
      noMerge (front ++ [cur]) = true →
      readLoop ls (front ++ [cur]) front.length count = Except.ok cs →
      noMerge cs = true := by
  intro ls
  induction ls with
  | nil =>
    intro front cur count cs hinv h
    simp only [readLoop, Except.ok.injEq] at h
    subst h
    exact hinv
  | cons l ls ih =>
    intro front cur count cs hinv h
    simp only [readLoop] at h
    by_cases hok : (parse_line l).ok = true
    · simp only [hok, if_pos] at h
      rw [getD_append_last] at h
      by_cases hcond : cur.begin + cur.size = (parse_line l).address
      · rw [if_pos hcond, set_append_last] at h
        exact ih front (extendChunk cur (parse_line l).size (parse_line l).data)
          (count + 1) cs
          (noMerge_replace_last front cur
            (extendChunk cur (parse_line l).size (parse_line l).data) rfl hinv) h
      · rw [if_neg hcond] at h
        have hlen : front.length + 1 = (front ++ [cur]).length := by simp
        rw [hlen] at h
        exact ih (front ++ [cur])
          (Data.init (parse_line l).address (parse_line l).data) (count + 1) cs
          (noMerge_snoc front cur
            (Data.init (parse_line l).address (parse_line l).data) hinv hcond) h
    · simp [hok] at h

/-- Specification-side definition of the chunk origins in order of first
appearance, read directly off the record stream: walking the records
after the first with `e` the current chunk's running end
(origin + stored size), a record whose address is not `e` opens a chunk
at its address (recorded in encounter order) and the walk continues from
that chunk; a record whose address is `e` merely extends the running
end.  `none` on a checksum failure. -/
def originsLoop : Nat → List (List Nat) → Option (List Nat)
  | _, [] => some []
  | e, l :: ls =>
    let p := parse_line l
    if p.ok then
      if e = p.address then originsLoop (e + p.size) ls
      else (originsLoop (p.address + p.data.length) ls).map (fun r => p.address :: r)
    else none

/-- The first record's address followed by the addresses of exactly the
later records that open a new chunk, in file order. -/
def chunkOrigins : List (List Nat) → Option (List Nat)
  | [] => none
  | l :: ls =>
    let p := parse_line l
    if p.ok then
      (originsLoop (p.address + p.data.length) ls).map (fun r => p.address :: r)
    else none

lemma readLoop_origins :
    ∀ (ls : List (List Nat)) (front : List Data) (cur : Data) (count : Nat)
      (cs : List Data),
      readLoop ls (front ++ [cur]) front.length count = Except.ok cs →
      ∃ m, originsLoop (cur.begin + cur.size) ls = some m ∧
        cs.map Data.begin = front.map Data.begin ++ cur.begin :: m := by
  intro ls
  induction ls with
  | nil =>
    intro front cur count cs h
    simp only [readLoop, Except.ok.injEq] at h
    subst h
    exact ⟨[], rfl, by simp⟩
  | cons l ls ih =>
    intro front cur count cs h
    simp only [readLoop] at h
    by_cases hok : (parse_line l).ok = true
    · simp only [hok, if_pos] at h
      rw [getD_append_last] at h
      by_cases hcond : cur.begin + cur.size = (parse_line l).address
      · rw [if_pos hcond, set_append_last] at h
        obtain ⟨m, hm, hmap⟩ :=
          ih front (extendChunk cur (parse_line l).size (parse_line l).data)
            (count + 1) cs h
        refine ⟨m, ?_, ?_⟩
        · simp only [originsLoop, hok, if_pos]
          rw [if_pos hcond]
          simpa [extendChunk, Nat.add_assoc] using hm
        · simpa [extendChunk] using hmap
      · rw [if_neg hcond] at h
        have hlen : front.length + 1 = (front ++ [cur]).length := by simp
        rw [hlen] at h
        obtain ⟨m, hm, hmap⟩ :=
          ih (front ++ [cur])
            (Data.init (parse_line l).address (parse_line l).data) (count + 1) cs h
        refine ⟨(parse_line l).address :: m, ?_, ?_⟩
        · simp only [originsLoop, hok, if_pos]
          rw [if_neg hcond]
          have hm2 : originsLoop
              ((parse_line l).address + (parse_line l).data.length) ls = some m := by
            simpa [Data.init] using hm
          rw [hm2]
          rfl
        · have hmap2 : cs.map Data.begin =
              (front.map Data.begin ++ [cur.begin]) ++ (parse_line l).address :: m := by
            simpa [Data.init] using hmap
          simpa using hmap2
    · simp [hok] at h

/-- C9 amended: the chunk list produced by `read_hex_file` is only
*locally* maximal: no chunk could be merged with its immediate successor
in the list (`chunks[i].begin + chunks[i].size ≠ chunks[i+1].begin`),
and the chunk origins are exactly the addresses of the chunk-opening
records in file order (`chunkOrigins`) — chunks appear in the order of
their first record; but a chunk may still be mergeable with a
non-consecutive chunk, or with an earlier one out of order, because the
loader only compares against the current chunk. -/
theorem C9_adjacent_chunks_unmergeable :
    (∀ (ls : List (List Nat)) (cs : List Data),
      read_hex_file ls = Except.ok cs → noMerge cs = true) ∧
    (∀ (ls : List (List Nat)) (cs : List Data),
      read_hex_file ls = Except.ok cs →
      chunkOrigins ls = some (cs.map Data.begin)) := by
  constructor
  · intro ls cs h
    cases ls with
    | nil => simp [read_hex_file] at h
    | cons l ls =>
      simp only [read_hex_file] at h
      by_cases hok : (parse_line l).ok = true
      · simp only [hok, if_pos] at h
        exact readLoop_noMerge_inv ls []
          (Data.init (parse_line l).address (parse_line l).data) 2 cs rfl h
      · simp [hok] at h
  · intro ls cs h
    cases ls with
    | nil => simp [read_hex_file] at h
    | cons l ls =>
      simp only [read_hex_file] at h
      by_cases hok : (parse_line l).ok = true
      · simp only [hok, if_pos] at h
        obtain ⟨m, hm, hmap⟩ := readLoop_origins ls []
          (Data.init (parse_line l).address (parse_line l).data) 2 cs h
        simp only [chunkOrigins, hok, if_pos]
        have hm2 : originsLoop
            ((parse_line l).address + (parse_line l).data.length) ls = some m := by
          simpa [Data.init] using hm
        rw [hm2]
        have hmap2 : cs.map Data.begin = (parse_line l).address :: m := by
          simpa [Data.init] using hmap
        rw [hmap2]
        rfl
      · simp [hok] at h

theorem C9_adjacent_chunks_witness :
    noMerge [Data.mk 0 (List.replicate 8 0) 8, Data.mk 0x10 (List.replicate 8 0) 8] = true ∧
    chunkOrigins [line00, line10] = some [0, 0x10] := by
  constructor
  · exact C9_adjacent_chunks_unmergeable.1 [line00, line10]
      [Data.mk 0 (List.replicate 8 0) 8, Data.mk 0x10 (List.replicate 8 0) 8] (by rfl)
  · have h := C9_adjacent_chunks_unmergeable.2 [line00, line10]
      [Data.mk 0 (List.replicate 8 0) 8, Data.mk 0x10 (List.replicate 8 0) 8] (by rfl)
    simpa using h

/-- C9 counterexample: records of 8 bytes at `0x0008` and then `0x0000`
(both with valid checksums) produce two chunks in file order, where the
second chunk's origin plus its length equals the first chunk's origin —
a mergeable pair exists, so the claim that no pair of chunks is
mergeable is false on this input. -/
theorem C9_counterexample :
    read_hex_file [line08, line00] = Except.ok
      [Data.mk 8 (List.replicate 8 0) 8, Data.mk 0 (List.replicate 8 0) 8] ∧
    (Data.mk 0 (List.replicate 8 0) 8).begin + (Data.mk 0 (List.replicate 8 0) 8).size =
      (Data.mk 8 (List.replicate 8 0) 8).begin :=
  ⟨by rfl, by decide⟩

end Programmer
